import Mathlib

/-!
Shallow embedding of the wespe Facebook batch uploader
(src/wespe/batch_uploaders/...), together with theorems settling the
frozen claims about its specification.

The remote collaborator (the facebook_business SDK) is modelled as an
oracle delivering, for each registered request index, either a raw
success response or a raw request error; everything else is translated
directly from the Python source.
-/

set_option maxRecDepth 4000

/-- A Facebook request, as seen by this library: an externally
constructed descriptor that the batch machinery only stores and passes
around.  Its payload is irrelevant to the batching logic, so it is
modelled by an identifier. -/
structure FacebookRequest where
  id : Nat
deriving DecidableEq, Repr

/-- A raw success response delivered by the remote collaborator; the
library only reads its json payload (modelled as a string). -/
structure FacebookResponse where
  jsonData : String
deriving DecidableEq, Repr

/-- A raw remote error (facebook_business.exceptions.FacebookRequestError),
exposing the accessors the library calls: api_transient_error(),
http_status(), api_error_message(), body(). -/
structure FacebookRequestError where
  api_transient_error : Bool
  http_status : Nat
  api_error_message : String
  body : String
deriving DecidableEq, Repr

/-- FacebookBatchResponse (facebook/facebook_batch_response.py): wraps
the raw response's json payload together with the request. -/
structure FacebookBatchResponse where
  data : String
  request : FacebookRequest
  response : FacebookResponse
deriving DecidableEq, Repr

/-- FacebookBatchResponse.__init__ : data is response.json(). -/
def FacebookBatchResponse.create (request : FacebookRequest)
    (response : FacebookResponse) : FacebookBatchResponse :=
  { data := response.jsonData, request := request, response := response }

/-- FacebookBatchRequestError (facebook/facebook_batch_request_error.py):
the classified per-request error, with the BaseRequestError fields
(description, is_transient, data) plus the request and the raw error. -/
structure FacebookBatchRequestError where
  description : String
  is_transient : Bool
  data : String
  request : FacebookRequest
  request_error : FacebookRequestError
deriving DecidableEq, Repr

/-- FacebookBatchRequestError.__init__ : classification of transience is
request_error.api_transient_error() or request_error.http_status() == 500. -/
def FacebookBatchRequestError.create (request : FacebookRequest)
    (request_error : FacebookRequestError) : FacebookBatchRequestError :=
  { description := request_error.api_error_message
    is_transient := request_error.api_transient_error
      || (request_error.http_status == 500)
    data := request_error.body
    request := request
    request_error := request_error }

/-- Errors raised by the library (wespe/exceptions.py), plus the message
payloads the code formats into them.  BatchExecutionError's message
"{} requests failed out of {}" is modelled by the two numbers the code
interpolates: len(errors) and num_requests. -/
inductive WespeError where
  | noFacebookRequestProvidedError (msg : String)
  | tooManyRequestsPerBatchError (msg : String)
  | invalidValueError (msg : String)
  | batchExecutionError (failedReported : Nat) (total : Nat)
deriving DecidableEq, Repr

/-- FacebookBatch state (facebook/facebook_batch.py): the request list and
the two index-aligned result arrays mutated by the callbacks. -/
structure FacebookBatch where
  requests : List FacebookRequest
  responses : List (Option FacebookBatchResponse)
  errors : List (Option FacebookBatchRequestError)
deriving DecidableEq, Repr

/-- FacebookBatch.__init__ : rejects an empty request list and more than
50 requests; otherwise initializes responses and errors to `[None] * n`. -/
def FacebookBatch.init (requests : List FacebookRequest) :
    Except WespeError FacebookBatch :=
  if requests.isEmpty then
    .error (.noFacebookRequestProvidedError
      "At least one facebook request must be provided")
  else if requests.length > 50 then
    .error (.tooManyRequestsPerBatchError
      "A maximum of 50 requests per batch is supported")
  else
    .ok { requests := requests
          responses := List.replicate requests.length none
          errors := List.replicate requests.length none }

/-- should_retry_facebook_batch (facebook/retries.py, the version imported
by facebook_batch.py): any(error.is_transient if error else False
for error in facebook_batch.errors). -/
def should_retry_facebook_batch (facebook_batch : FacebookBatch) : Bool :=
  facebook_batch.errors.any (fun error =>
    match error with
    | some e => e.is_transient
    | none => false)

/-- should_retry_facebook_batch (batch_uploaders/retries.py, the older
sibling module): all(error.request_error.api_transient_error() if error
else False for error in facebook_batch._errors). -/
def should_retry_facebook_batch_old (facebook_batch : FacebookBatch) : Bool :=
  facebook_batch.errors.all (fun error =>
    match error with
    | some e => e.request_error.api_transient_error
    | none => false)

/-- FacebookBatch._default_success_callback: writes a fresh
FacebookBatchResponse at request_index and clears the error there.  In
the source request_index always indexes into the request list; an
out-of-range index leaves the batch unchanged here. -/
def FacebookBatch.default_success_callback (b : FacebookBatch)
    (response : FacebookResponse) (request_index : Nat) : FacebookBatch :=
  match b.requests.get? request_index with
  | none => b
  | some request =>
    { b with
      responses := b.responses.set request_index
        (some (FacebookBatchResponse.create request response))
      errors := b.errors.set request_index none }

/-- FacebookBatch._default_failure_callback: writes a freshly classified
FacebookBatchRequestError at request_index and clears the response there. -/
def FacebookBatch.default_failure_callback (b : FacebookBatch)
    (request_error : FacebookRequestError) (request_index : Nat) : FacebookBatch :=
  match b.requests.get? request_index with
  | none => b
  | some request =>
    { b with
      responses := b.responses.set request_index none
      errors := b.errors.set request_index
        (some (FacebookBatchRequestError.create request request_error)) }

/-- The outcome the remote collaborator delivers for one registered
request: exactly one of the two callbacks, carrying either a raw
response or a raw error. -/
inductive Outcome where
  | success (response : FacebookResponse)
  | failure (error : FacebookRequestError)
deriving DecidableEq, Repr

/-- The registration condition in FacebookBatch.execute's loop:
(response is None and error is None) or (error and error.is_transient). -/
def FacebookBatch.shouldRegister (b : FacebookBatch) (i : Nat) : Bool :=
  let response := b.responses.getD i none
  let error := b.errors.getD i none
  (response.isNone && error.isNone) ||
    (match error with
     | some e => e.is_transient
     | none => false)

/-- Deliver one outcome to the batch through the matching default
callback. -/
def FacebookBatch.deliver (oracle : Nat → Outcome) (b : FacebookBatch)
    (i : Nat) : FacebookBatch :=
  match oracle i with
  | .success r => b.default_success_callback r i
  | .failure e => b.default_failure_callback e i

/-- One round of FacebookBatch.execute: register exactly the indices
satisfying the registration condition (decided on the state at the start
of the round), then the client's blocking execute delivers one callback
per registered index. -/
def FacebookBatch.executeRound (oracle : Nat → Outcome)
    (b : FacebookBatch) : FacebookBatch :=
  let registered :=
    (List.range b.requests.length).filter b.shouldRegister
  registered.foldl (FacebookBatch.deliver oracle) b

/-- MAX_ATTEMPTS on FacebookBatch. -/
def FacebookBatch.MAX_ATTEMPTS : Nat := 5

/-- The tenacity retry loop around FacebookBatch.execute
(retry_if_result(should_retry_facebook_batch), stop_after_attempt):
run a round; if the predicate asks for a retry, either recurse with one
fewer attempt left or, when attempts are exhausted, end with the
RetryError flag true.  The oracle's first argument is the attempt
number, its second the request index. -/
def FacebookBatch.executeWithRetries (oracle : Nat → Nat → Outcome) :
    Nat → Nat → FacebookBatch → FacebookBatch × Bool
  | _, 0, b => (b, true)
  | attemptNo, attemptsLeft + 1, b =>
    let b' := b.executeRound (oracle attemptNo)
    if should_retry_facebook_batch b' then
      FacebookBatch.executeWithRetries oracle (attemptNo + 1) attemptsLeft b'
    else (b', false)

/-- FacebookBatch.execute: at most MAX_ATTEMPTS rounds; the Bool is true
exactly when the loop ended by raising tenacity's RetryError. -/
def FacebookBatch.execute (oracle : Nat → Nat → Outcome)
    (b : FacebookBatch) : FacebookBatch × Bool :=
  FacebookBatch.executeWithRetries oracle 1 FacebookBatch.MAX_ATTEMPTS b

/-- The response recorded at index i (None when absent or out of range),
as read by the registration condition and the accessors. -/
def FacebookBatch.respAt (b : FacebookBatch) (i : Nat) :
    Option FacebookBatchResponse :=
  b.responses.getD i none

/-- The error recorded at index i (None when absent or out of range). -/
def FacebookBatch.errAt (b : FacebookBatch) (i : Nat) :
    Option FacebookBatchRequestError :=
  b.errors.getD i none

/-- The slot invariant: no index simultaneously holds a response and an
error. -/
def FacebookBatch.exclusive (b : FacebookBatch) : Prop :=
  ∀ i, ((b.respAt i).isSome && (b.errAt i).isSome) = false

/-- A slot is settled when it holds a response or a non-transient error:
such an index is no longer eligible for resubmission. -/
def FacebookBatch.settled (b : FacebookBatch) (i : Nat) : Bool :=
  (b.respAt i).isSome ||
    (match b.errAt i with
     | some e => !e.is_transient
     | none => false)

/-- One callback delivery, as the remote client performs them during its
blocking execute: a success or failure aimed at one request index. -/
inductive CallbackEvent where
  | success (request_index : Nat) (response : FacebookResponse)
  | failure (request_index : Nat) (error : FacebookRequestError)
deriving DecidableEq, Repr

/-- Apply one callback delivery to the batch state. -/
def FacebookBatch.applyEvent (b : FacebookBatch) :
    CallbackEvent → FacebookBatch
  | .success i r => b.default_success_callback r i
  | .failure i e => b.default_failure_callback e i

/-- The chunk start offsets produced by `range(0, num_requests,
chunk_size)`: 0, k, 2k, ..., of which there are ceil(n / k) many (for
k ≥ 1; Python's range rejects step 0, which the chunk-size validation
rules out anyway). -/
def chunkStarts (n k : Nat) : List Nat :=
  List.range' 0 ((n + k - 1) / k) k

/-- Partition a list into consecutive chunks of size k, as the loop
`for i in range(0, num_requests, chunk_size)` slices
`self.requests[i : i + chunk_size]`. -/
def chunkList (k : Nat) (l : List FacebookRequest) :
    List (List FacebookRequest) :=
  (chunkStarts l.length k).map (fun i => (l.drop i).take k)

/-- FacebookBatchUploader state (facebook/facebook_batch_uploader.py):
the full request list and the batches appended so far. -/
structure FacebookBatchUploader where
  requests : List FacebookRequest
  batches : List FacebookBatch
deriving DecidableEq, Repr

/-- FacebookBatchUploader.__init__ : starts with no batches. -/
def FacebookBatchUploader.init (requests : List FacebookRequest) :
    FacebookBatchUploader :=
  { requests := requests, batches := [] }

/-- FacebookBatchUploader.errors: the batches' error arrays concatenated
in chunk order. -/
def FacebookBatchUploader.errors (u : FacebookBatchUploader) :
    List (Option FacebookBatchRequestError) :=
  (u.batches.map FacebookBatch.errors).flatten

/-- FacebookBatchUploader.responses: the batches' response arrays
concatenated in chunk order. -/
def FacebookBatchUploader.responses (u : FacebookBatchUploader) :
    List (Option FacebookBatchResponse) :=
  (u.batches.map FacebookBatch.responses).flatten

/-- FacebookBatchUploader.items: requests zipped with the aggregated
responses and errors (Python's zip truncates to the shortest input). -/
def FacebookBatchUploader.items (u : FacebookBatchUploader) :
    List (FacebookRequest ×
      (Option FacebookBatchResponse × Option FacebookBatchRequestError)) :=
  u.requests.zip (u.responses.zip u.errors)

/-- The chunk loop of FacebookBatchUploader.execute: for each chunk (in
order) construct a FacebookBatch, append it, and execute it, swallowing
tenacity's RetryError (`except RetryError: pass`).  A constructor error
would propagate and abort the loop; for chunk sizes in 1..50 it never
fires.  The oracle's first argument selects the chunk. -/
def processChunks (oracle : Nat → Nat → Nat → Outcome) :
    Nat → List (List FacebookRequest) → FacebookBatchUploader →
    FacebookBatchUploader × Option WespeError
  | _, [], u => (u, none)
  | j, c :: cs, u =>
    match FacebookBatch.init c with
    | .error e => (u, some e)
    | .ok b =>
      let executed := FacebookBatch.execute (oracle j) b
      processChunks oracle (j + 1) cs
        { u with batches := u.batches ++ [executed.1] }

/-- FacebookBatchUploader.execute(chunk_size): validate the chunk size,
run every chunk, then raise BatchExecutionError when any aggregated
error is non-absent.  The result pairs the final uploader state with the
exception raised, if any; the code interpolates len(errors) — the length
of the whole aggregated error list, None entries included — and
num_requests into the message. -/
def FacebookBatchUploader.execute (oracle : Nat → Nat → Nat → Outcome)
    (u : FacebookBatchUploader) (chunk_size : Nat) :
    FacebookBatchUploader × Option WespeError :=
  let num_requests := u.requests.length
  if chunk_size < 1 ∨ chunk_size > 50 then
    (u, some (.invalidValueError "Chunk size must be between 1 and 50"))
  else
    let r := processChunks oracle 0 (chunkList chunk_size u.requests) u
    match r.2 with
    | some e => (r.1, some e)
    | none =>
      if r.1.errors.any Option.isSome then
        (r.1, some (.batchExecutionError r.1.errors.length num_requests))
      else
        (r.1, none)

/-- The number of requests that actually failed: aggregated error slots
that are non-absent. -/
def FacebookBatchUploader.failedCount (u : FacebookBatchUploader) : Nat :=
  (u.errors.filter Option.isSome).length

/-- Specification-side description of the chunk loop, compared against
FacebookBatchUploader.execute by the theorems below: every chunk yields
a fresh batch, executed independently with its own oracle, regardless of
the other chunks' outcomes. -/
def independentChunkRuns (oracle : Nat → Nat → Nat → Outcome)
    (cs : List (List FacebookRequest)) : List FacebookBatch :=
  (cs.enumFrom 0).map (fun p =>
    (FacebookBatch.execute (oracle p.1)
      { requests := p.2
        responses := List.replicate p.2.length none
        errors := List.replicate p.2.length none }).1)

/-- A raw 502 error whose platform transience flag is false. -/
def rawError502 : FacebookRequestError :=
  { api_transient_error := false
    http_status := 502
    api_error_message := "bad gateway"
    body := "\x7b\x7d" }

/-- A raw error flagged transient by the platform. -/
def rawTransient : FacebookRequestError :=
  { api_transient_error := true
    http_status := 400
    api_error_message := "rate limited"
    body := "\x7b\x7d" }

/-- A raw permanent error (flag false, status 400). -/
def rawPermanent : FacebookRequestError :=
  { api_transient_error := false
    http_status := 400
    api_error_message := "invalid parameter"
    body := "\x7b\x7d" }

/-- A concrete raw success response. -/
def okResponse : FacebookResponse := ⟨"ok"⟩

/-- A transient classified error (platform flag true) for tests below. -/
def transientError : FacebookBatchRequestError :=
  FacebookBatchRequestError.create ⟨0⟩ rawTransient

/-- A permanent classified error (flag false, status 400) for tests below. -/
def permanentError : FacebookBatchRequestError :=
  FacebookBatchRequestError.create ⟨1⟩ rawPermanent

/-- A two-request input on which request 0 succeeds and request 1 fails
permanently, whatever the attempt. -/
def oracleOneFailure : Nat → Nat → Nat → Outcome :=
  fun _ _ i => if i = 0 then .success okResponse else .failure rawPermanent

/-- A freshly constructed uploader over two requests. -/
def uploaderTwo : FacebookBatchUploader :=
  FacebookBatchUploader.init [⟨0⟩, ⟨1⟩]

/-- A batch whose index 0 already holds a response (a settled slot) and
whose index 1 is still unsettled. -/
def settledBatch : FacebookBatch :=
  { requests := [⟨0⟩, ⟨1⟩]
    responses := [some (FacebookBatchResponse.create ⟨0⟩ okResponse), none]
    errors := [none, none] }

/-- A freshly constructed one-request batch. -/
def freshBatchOne : FacebookBatch :=
  { requests := [⟨0⟩], responses := [none], errors := [none] }

/-- A concrete callback sequence: a success then a failure at index 0. -/
def twoEvents : List CallbackEvent :=
  [.success 0 okResponse, .failure 0 rawPermanent]

/-- A batch whose error state mixes one transient and one permanent
failure. -/
def mixedFailureBatch : FacebookBatch :=
  { requests := [⟨0⟩, ⟨1⟩]
    responses := [none, none]
    errors := [some transientError, some permanentError] }

/-! Helper lemmas and the claim theorems. -/

theorem getD_replicate_none {α : Type} (n i : Nat) :
    (List.replicate n (none : Option α)).getD i none = none := by
  simp only [List.getD_eq_getElem?_getD, List.getElem?_replicate]
  split <;> rfl

theorem set_getD_self {α : Type} (l : List (Option α)) (j : Nat)
    (a : Option α) : (l.set j a).getD j none = if j < l.length then a else none := by
  simp only [List.getD_eq_getElem?_getD, List.getElem?_set_self']
  cases hj : l[j]? with
  | none =>
    have : l.length ≤ j := by
      by_contra hlt
      push_neg at hlt
      rw [List.getElem?_eq_getElem hlt] at hj
      exact Option.noConfusion hj
    simp [Nat.not_lt_of_le this]
  | some v =>
    have : j < l.length := by
      by_contra hge
      push_neg at hge
      rw [List.getElem?_eq_none hge] at hj
      exact Option.noConfusion hj
    simp [this]

theorem success_callback_requests (b : FacebookBatch) (r : FacebookResponse)
    (j : Nat) : (b.default_success_callback r j).requests = b.requests := by
  unfold FacebookBatch.default_success_callback
  cases b.requests.get? j <;> rfl

theorem failure_callback_requests (b : FacebookBatch)
    (e : FacebookRequestError) (j : Nat) :
    (b.default_failure_callback e j).requests = b.requests := by
  unfold FacebookBatch.default_failure_callback
  cases b.requests.get? j <;> rfl

theorem deliver_requests (o : Nat → Outcome) (b : FacebookBatch) (j : Nat) :
    (FacebookBatch.deliver o b j).requests = b.requests := by
  unfold FacebookBatch.deliver
  cases o j with
  | success r => exact success_callback_requests b r j
  | failure e => exact failure_callback_requests b e j

theorem success_callback_slot_ne (b : FacebookBatch) (r : FacebookResponse)
    {i j : Nat} (h : j ≠ i) :
    (b.default_success_callback r j).respAt i = b.respAt i ∧
    (b.default_success_callback r j).errAt i = b.errAt i := by
  unfold FacebookBatch.default_success_callback
  cases b.requests.get? j with
  | none => exact ⟨rfl, rfl⟩
  | some req =>
    constructor <;>
      simp [FacebookBatch.respAt, FacebookBatch.errAt,
        List.getD_eq_getElem?_getD, List.getElem?_set_ne h]

theorem failure_callback_slot_ne (b : FacebookBatch)
    (e : FacebookRequestError) {i j : Nat} (h : j ≠ i) :
    (b.default_failure_callback e j).respAt i = b.respAt i ∧
    (b.default_failure_callback e j).errAt i = b.errAt i := by
  unfold FacebookBatch.default_failure_callback
  cases b.requests.get? j with
  | none => exact ⟨rfl, rfl⟩
  | some req =>
    constructor <;>
      simp [FacebookBatch.respAt, FacebookBatch.errAt,
        List.getD_eq_getElem?_getD, List.getElem?_set_ne h]

theorem deliver_slot_ne (o : Nat → Outcome) (b : FacebookBatch)
    {i j : Nat} (h : j ≠ i) :
    (FacebookBatch.deliver o b j).respAt i = b.respAt i ∧
    (FacebookBatch.deliver o b j).errAt i = b.errAt i := by
  unfold FacebookBatch.deliver
  cases o j with
  | success r => exact success_callback_slot_ne b r h
  | failure e => exact failure_callback_slot_ne b e h

theorem success_callback_exclusive (b : FacebookBatch) (hx : b.exclusive)
    (r : FacebookResponse) (j : Nat) :
    (b.default_success_callback r j).exclusive := by
  intro i
  by_cases hij : j = i
  · subst hij
    unfold FacebookBatch.default_success_callback
    cases hq : b.requests.get? j with
    | none => exact hx j
    | some req =>
      show ((FacebookBatch.respAt _ j).isSome &&
        (FacebookBatch.errAt _ j).isSome) = false
      have herr : FacebookBatch.errAt
          { b with
            responses := b.responses.set j
              (some (FacebookBatchResponse.create req r))
            errors := b.errors.set j none } j = none := by
        show (b.errors.set j none).getD j none = none
        rw [set_getD_self]
        split <;> rfl
      rw [herr]
      simp
  · obtain ⟨h1, h2⟩ := success_callback_slot_ne b r hij
    rw [show (b.default_success_callback r j).respAt i = b.respAt i from h1,
      show (b.default_success_callback r j).errAt i = b.errAt i from h2]
    exact hx i

theorem failure_callback_exclusive (b : FacebookBatch) (hx : b.exclusive)
    (e : FacebookRequestError) (j : Nat) :
    (b.default_failure_callback e j).exclusive := by
  intro i
  by_cases hij : j = i
  · subst hij
    unfold FacebookBatch.default_failure_callback
    cases hq : b.requests.get? j with
    | none => exact hx j
    | some req =>
      show ((FacebookBatch.respAt _ j).isSome &&
        (FacebookBatch.errAt _ j).isSome) = false
      have hresp : FacebookBatch.respAt
          { b with
            responses := b.responses.set j none
            errors := b.errors.set j
              (some (FacebookBatchRequestError.create req e)) } j = none := by
        show (b.responses.set j none).getD j none = none
        rw [set_getD_self]
        split <;> rfl
      rw [hresp]
      simp
  · obtain ⟨h1, h2⟩ := failure_callback_slot_ne b e hij
    rw [show (b.default_failure_callback e j).respAt i = b.respAt i from h1,
      show (b.default_failure_callback e j).errAt i = b.errAt i from h2]
    exact hx i

theorem deliver_exclusive (o : Nat → Outcome) (b : FacebookBatch)
    (j : Nat) (hx : b.exclusive) :
    (FacebookBatch.deliver o b j).exclusive := by
  unfold FacebookBatch.deliver
  cases o j with
  | success r => exact success_callback_exclusive b hx r j
  | failure e => exact failure_callback_exclusive b hx e j

theorem applyEvent_exclusive (b : FacebookBatch) (hx : b.exclusive)
    (ev : CallbackEvent) : (b.applyEvent ev).exclusive := by
  cases ev with
  | success i r => exact success_callback_exclusive b hx r i
  | failure i e => exact failure_callback_exclusive b hx e i

theorem foldl_deliver_slot_not_mem (o : Nat → Outcome) (L : List Nat)
    (b : FacebookBatch) (i : Nat) (h : i ∉ L) :
    (L.foldl (FacebookBatch.deliver o) b).respAt i = b.respAt i ∧
    (L.foldl (FacebookBatch.deliver o) b).errAt i = b.errAt i := by
  induction L generalizing b with
  | nil => exact ⟨rfl, rfl⟩
  | cons j t ih =>
    rw [List.foldl_cons]
    have hji : j ≠ i := by
      rintro rfl
      exact h (List.mem_cons_self _ _)
    have hnt : i ∉ t := fun hin => h (List.mem_cons_of_mem _ hin)
    obtain ⟨h1, h2⟩ := deliver_slot_ne o b hji
    obtain ⟨h3, h4⟩ := ih (FacebookBatch.deliver o b j) hnt
    exact ⟨h3.trans h1, h4.trans h2⟩

theorem foldl_deliver_exclusive (o : Nat → Outcome) (L : List Nat)
    (b : FacebookBatch) (hx : b.exclusive) :
    (L.foldl (FacebookBatch.deliver o) b).exclusive := by
  induction L generalizing b with
  | nil => exact hx
  | cons j t ih =>
    rw [List.foldl_cons]
    exact ih _ (deliver_exclusive o b j hx)

theorem foldl_deliver_requests (o : Nat → Outcome) (L : List Nat)
    (b : FacebookBatch) :
    (L.foldl (FacebookBatch.deliver o) b).requests = b.requests := by
  induction L generalizing b with
  | nil => rfl
  | cons j t ih =>
    rw [List.foldl_cons]
    exact (ih (FacebookBatch.deliver o b j)).trans (deliver_requests o b j)

theorem executeRound_requests (o : Nat → Outcome) (b : FacebookBatch) :
    (b.executeRound o).requests = b.requests :=
  foldl_deliver_requests o _ b

theorem executeRound_exclusive (o : Nat → Outcome) (b : FacebookBatch)
    (hx : b.exclusive) : (b.executeRound o).exclusive :=
  foldl_deliver_exclusive o _ b hx

theorem executeRound_slot_of_not_registered (o : Nat → Outcome)
    (b : FacebookBatch) (i : Nat) (h : b.shouldRegister i = false) :
    (b.executeRound o).respAt i = b.respAt i ∧
    (b.executeRound o).errAt i = b.errAt i := by
  apply foldl_deliver_slot_not_mem
  intro hmem
  have htrue := (List.mem_filter.mp hmem).2
  rw [h] at htrue
  exact Bool.false_ne_true htrue

theorem shouldRegister_eq (b : FacebookBatch) (i : Nat) :
    b.shouldRegister i =
      (((b.respAt i).isNone && (b.errAt i).isNone) ||
        (match b.errAt i with
         | some e => e.is_transient
         | none => false)) := rfl

theorem settled_congr {b b' : FacebookBatch} (i : Nat)
    (h1 : b'.respAt i = b.respAt i) (h2 : b'.errAt i = b.errAt i) :
    b'.settled i = b.settled i := by
  unfold FacebookBatch.settled
  rw [h1, h2]

theorem settled_not_registered (b : FacebookBatch) (hx : b.exclusive)
    (i : Nat) (hs : b.settled i = true) : b.shouldRegister i = false := by
  have hxi := hx i
  rw [shouldRegister_eq]
  unfold FacebookBatch.settled at hs
  cases hr : b.respAt i with
  | some r =>
    rw [hr] at hxi
    cases he : b.errAt i with
    | some e => rw [he] at hxi; simp at hxi
    | none => simp
  | none =>
    rw [hr] at hs
    cases he : b.errAt i with
    | none => rw [he] at hs; simp at hs
    | some e =>
      rw [he] at hs
      simp only [Option.isSome_none, Bool.false_or] at hs
      have : e.is_transient = false := by
        cases het : e.is_transient
        · rfl
        · rw [het] at hs; exact absurd hs (by decide)
      simp [this]

theorem executeWithRetries_succ (oracle : Nat → Nat → Outcome)
    (a n : Nat) (b : FacebookBatch) :
    FacebookBatch.executeWithRetries oracle a (n + 1) b =
      (if should_retry_facebook_batch (b.executeRound (oracle a)) then
        FacebookBatch.executeWithRetries oracle (a + 1) n
          (b.executeRound (oracle a))
      else (b.executeRound (oracle a), false)) := rfl

theorem executeWithRetries_preserves_settled (oracle : Nat → Nat → Outcome)
    (n : Nat) : ∀ (a : Nat) (b : FacebookBatch) (i : Nat),
    b.exclusive → b.settled i = true →
      (FacebookBatch.executeWithRetries oracle a n b).1.respAt i = b.respAt i ∧
      (FacebookBatch.executeWithRetries oracle a n b).1.errAt i = b.errAt i ∧
      (FacebookBatch.executeWithRetries oracle a n b).1.exclusive ∧
      (FacebookBatch.executeWithRetries oracle a n b).1.settled i = true := by
  induction n with
  | zero => exact fun a b i hx hs => ⟨rfl, rfl, hx, hs⟩
  | succ n ih =>
    intro a b i hx hs
    have hreg := settled_not_registered b hx i hs
    obtain ⟨h1, h2⟩ := executeRound_slot_of_not_registered (oracle a) b i hreg
    have hx' := executeRound_exclusive (oracle a) b hx
    have hs' : (b.executeRound (oracle a)).settled i = true := by
      rw [settled_congr i h1 h2]
      exact hs
    rw [executeWithRetries_succ]
    cases hretry : should_retry_facebook_batch (b.executeRound (oracle a)) with
    | true =>
      rw [if_pos rfl]
      obtain ⟨g1, g2, g3, g4⟩ := ih (a + 1) (b.executeRound (oracle a)) i hx' hs'
      exact ⟨g1.trans h1, g2.trans h2, g3, g4⟩
    | false =>
      rw [if_neg (by decide : ¬(false = true))]
      exact ⟨h1, h2, hx', hs'⟩

theorem getD_out_of_range {α : Type} (l : List (Option α)) (j : Nat)
    (hj : l.length ≤ j) : l.getD j none = none := by
  simp [List.getD_eq_getElem?_getD, List.getElem?_eq_none hj]

theorem exclusive_of_forall_lt (b : FacebookBatch)
    (h : ∀ i, i < b.responses.length →
      ((b.respAt i).isSome && (b.errAt i).isSome) = false) : b.exclusive := by
  intro i
  rcases Nat.lt_or_ge i b.responses.length with hlt | hge
  · exact h i hlt
  · unfold FacebookBatch.respAt
    rw [getD_out_of_range _ _ hge]
    simp

/-- C1: in every round of FacebookBatch.execute the registration
condition holds exactly at indices that are unsettled (no response, no
error) or hold a transient error; a settled index (response present, or
non-transient error present) is not registered, its recorded outcome
survives the whole retry loop, and it is still unregistered afterwards. -/
theorem execute_registration_policy (b : FacebookBatch) (hx : b.exclusive) :
    (∀ j, b.shouldRegister j = true ↔
      ((b.respAt j = none ∧ b.errAt j = none) ∨
        ∃ e, b.errAt j = some e ∧ e.is_transient = true)) ∧
    (∀ i, b.settled i = true →
      b.shouldRegister i = false ∧
      ∀ (oracle : Nat → Nat → Outcome) (a n : Nat),
        (FacebookBatch.executeWithRetries oracle a n b).1.respAt i =
          b.respAt i ∧
        (FacebookBatch.executeWithRetries oracle a n b).1.errAt i =
          b.errAt i ∧
        (FacebookBatch.executeWithRetries oracle a n b).1.shouldRegister i =
          false) := by
  constructor
  · intro j
    rw [shouldRegister_eq]
    cases hr : b.respAt j with
    | some r => cases he : b.errAt j with
      | some e => simp
      | none => simp
    | none => cases he : b.errAt j with
      | some e => simp
      | none => simp
  · intro i hs
    have hreg := settled_not_registered b hx i hs
    refine ⟨hreg, fun oracle a n => ?_⟩
    obtain ⟨h1, h2, _, _⟩ :=
      executeWithRetries_preserves_settled oracle n a b i hx hs
    refine ⟨h1, h2, ?_⟩
    rw [shouldRegister_eq, h1, h2, ← shouldRegister_eq]
    exact hreg

/-- C1 witness: on a concrete batch whose slot 0 already holds a
response, slot 0 is settled and is not registered. -/
theorem execute_registration_policy_witness :
    settledBatch.settled 0 = true ∧ settledBatch.shouldRegister 0 = false :=
  ⟨by decide,
    (((execute_registration_policy settledBatch
      (by apply exclusive_of_forall_lt; decide)).2) 0 (by decide)).1⟩

/-- C8: any sequence of success/failure callback deliveries preserves
the invariant that no index simultaneously holds a response and an
error: the success callback clears the error it overwrites, the failure
callback clears the response. -/
theorem callbacks_preserve_exclusivity (b : FacebookBatch)
    (hx : b.exclusive) (events : List CallbackEvent) :
    (events.foldl FacebookBatch.applyEvent b).exclusive := by
  induction events generalizing b with
  | nil => exact hx
  | cons ev t ih =>
    rw [List.foldl_cons]
    exact ih _ (applyEvent_exclusive b hx ev)

/-- C8 witness: after a concrete success-then-failure delivery sequence
on a fresh one-request batch, slot 0 does not hold both a response and
an error. -/
theorem callbacks_preserve_exclusivity_witness :
    (((twoEvents.foldl FacebookBatch.applyEvent freshBatchOne).respAt 0).isSome
      && ((twoEvents.foldl FacebookBatch.applyEvent
        freshBatchOne).errAt 0).isSome) = false :=
  callbacks_preserve_exclusivity freshBatchOne
    (by apply exclusive_of_forall_lt; decide) twoEvents 0

/-- C5: Batch construction rejects the empty list with
NoFacebookRequestProvidedError and more than 50 requests with
TooManyRequestsPerBatchError; for 1..50 requests it succeeds with
same-length result arrays and every slot unsettled. -/
theorem batch_init_spec (requests : List FacebookRequest) :
    (requests.length = 0 →
      FacebookBatch.init requests = .error (.noFacebookRequestProvidedError
        "At least one facebook request must be provided")) ∧
    (50 < requests.length →
      FacebookBatch.init requests = .error (.tooManyRequestsPerBatchError
        "A maximum of 50 requests per batch is supported")) ∧
    (1 ≤ requests.length → requests.length ≤ 50 →
      ∃ b, FacebookBatch.init requests = .ok b ∧
        b.requests = requests ∧
        b.responses.length = requests.length ∧
        b.errors.length = requests.length ∧
        ∀ i, b.respAt i = none ∧ b.errAt i = none) := by
  unfold FacebookBatch.init
  refine ⟨?_, ?_, ?_⟩
  · intro h0
    rw [if_pos]
    cases requests with
    | nil => rfl
    | cons a t => exact absurd h0 (by simp)
  · intro h50
    have hne : ¬(requests.isEmpty = true) := by
      cases requests with
      | nil => simp at h50
      | cons a t => simp
    rw [if_neg hne, if_pos h50]
  · intro h1 h50
    have hne : ¬(requests.isEmpty = true) := by
      cases requests with
      | nil => simp at h1
      | cons a t => simp
    rw [if_neg hne, if_neg (Nat.not_lt_of_le h50)]
    refine ⟨_, rfl, rfl, List.length_replicate _ _, List.length_replicate _ _,
      fun i => ⟨getD_replicate_none _ _, getD_replicate_none _ _⟩⟩

/-- C5 witness at a concrete one-request list. -/
theorem batch_init_spec_witness :
    1 ≤ ([⟨0⟩] : List FacebookRequest).length ∧
    ([⟨0⟩] : List FacebookRequest).length ≤ 50 ∧
    ∃ b, FacebookBatch.init [⟨0⟩] = .ok b ∧
      b.requests = [⟨0⟩] ∧
      b.responses.length = ([⟨0⟩] : List FacebookRequest).length ∧
      b.errors.length = ([⟨0⟩] : List FacebookRequest).length ∧
      ∀ i, b.respAt i = none ∧ b.errAt i = none :=
  ⟨by decide, by decide,
    (batch_init_spec [⟨0⟩]).2.2 (by decide) (by decide)⟩

/-- C2: the retry predicate used by Batch.execute returns true iff at
least one slot's error is present and marked transient. -/
theorem should_retry_iff_exists_transient (b : FacebookBatch) :
    should_retry_facebook_batch b = true ↔
      ∃ e : FacebookBatchRequestError,
        some e ∈ b.errors ∧ e.is_transient = true := by
  unfold should_retry_facebook_batch
  rw [List.any_eq_true]
  constructor
  · rintro ⟨o, ho, he⟩
    match o with
    | some e => exact ⟨e, ho, he⟩
    | none => simp at he
  · rintro ⟨e, he, ht⟩
    exact ⟨some e, he, ht⟩

/-- C3 counterexample: a raw error with platform flag false and HTTP
status 502 (a 5xx-class status) is classified with is_transient = false,
refuting the claim that any 5xx status yields is_transient = true. -/
theorem is_transient_502_counterexample :
    500 ≤ rawError502.http_status ∧ rawError502.http_status < 600 ∧
    rawError502.api_transient_error = false ∧
    (FacebookBatchRequestError.create ⟨0⟩ rawError502).is_transient = false := by
  decide

/-- C3 amended: error classification computes is_transient as
(platform-reported transience flag) OR (HTTP status is exactly 500);
5xx statuses other than 500 do not by themselves make an error transient. -/
theorem is_transient_eq_flag_or_status500 (request : FacebookRequest)
    (request_error : FacebookRequestError) :
    (FacebookBatchRequestError.create request request_error).is_transient =
      (request_error.api_transient_error
        || (request_error.http_status == 500)) := rfl

theorem chunkStarts_nil (k : Nat) : chunkStarts 0 k = [] := by
  unfold chunkStarts
  cases k with
  | zero => rfl
  | succ k =>
    rw [show 0 + (k + 1) - 1 = k by omega, Nat.div_eq_of_lt (Nat.lt_succ_self k)]
    rfl

theorem chunkList_nil (k : Nat) : chunkList k [] = [] := by
  unfold chunkList
  rw [List.length_nil, chunkStarts_nil]
  rfl

theorem ceil_div_succ {n k : Nat} (hk : 1 ≤ k) (hn : 1 ≤ n) :
    (n + k - 1) / k = (n - 1) / k + 1 := by
  rw [show n + k - 1 = (n - 1) + k by omega, Nat.add_div_right _ hk]

theorem ceil_div_drop {n k : Nat} (hk : 1 ≤ k) (hn : 1 ≤ n) :
    ((n - k) + k - 1) / k = (n - 1) / k := by
  rcases Nat.le_total n k with h | h
  · rw [show (n - k) + k - 1 = k - 1 by omega,
      Nat.div_eq_of_lt (by omega), Nat.div_eq_of_lt (by omega)]
  · rw [show (n - k) + k - 1 = n - 1 by omega]

theorem chunkList_cons (k : Nat) (hk : 1 ≤ k) (l : List FacebookRequest)
    (hl : l ≠ []) :
    chunkList k l = l.take k :: chunkList k (l.drop k) := by
  have hn : 1 ≤ l.length := List.length_pos.mpr hl
  unfold chunkList chunkStarts
  rw [List.length_drop, ceil_div_drop hk hn, ceil_div_succ hk hn,
    List.range'_succ, List.map_cons, List.drop_zero, Nat.zero_add]
  congr 1
  rw [show List.range' k ((l.length - 1) / k) k =
      List.map (k + ·) (List.range' 0 ((l.length - 1) / k) k) by
        rw [List.map_add_range', Nat.add_zero],
    List.map_map]
  apply List.map_congr_left
  intro i _
  show (l.drop (k + i)).take k = ((l.drop k).drop i).take k
  rw [List.drop_drop]

theorem chunkList_join_bounded (k : Nat) (hk : 1 ≤ k) :
    ∀ n, ∀ l : List FacebookRequest, l.length ≤ n →
      (chunkList k l).flatten = l := by
  intro n
  induction n with
  | zero =>
    intro l hl
    have : l = [] := List.eq_nil_of_length_eq_zero (by omega)
    subst this
    rw [chunkList_nil]
    rfl
  | succ n ih =>
    intro l hl
    by_cases hne : l = []
    · subst hne
      rw [chunkList_nil]
      rfl
    · have hn : 1 ≤ l.length := List.length_pos.mpr hne
      rw [chunkList_cons k hk l hne, List.flatten_cons,
        ih (l.drop k) (by rw [List.length_drop]; omega)]
      exact List.take_append_drop k l

theorem chunkList_join (k : Nat) (hk : 1 ≤ k) (l : List FacebookRequest) :
    (chunkList k l).flatten = l :=
  chunkList_join_bounded k hk l.length l (Nat.le_refl _)

theorem chunkList_length (k : Nat) (l : List FacebookRequest) :
    (chunkList k l).length = (l.length + k - 1) / k := by
  unfold chunkList chunkStarts
  rw [List.length_map, List.length_range']

theorem chunkList_mem_bounded (k : Nat) (hk : 1 ≤ k) :
    ∀ n, ∀ l : List FacebookRequest, l.length ≤ n →
      ∀ c ∈ chunkList k l, c ≠ [] ∧ c.length ≤ k := by
  intro n
  induction n with
  | zero =>
    intro l hl c hc
    have : l = [] := List.eq_nil_of_length_eq_zero (by omega)
    subst this
    rw [chunkList_nil] at hc
    exact absurd hc (List.not_mem_nil c)
  | succ n ih =>
    intro l hl c hc
    by_cases hne : l = []
    · subst hne
      rw [chunkList_nil] at hc
      exact absurd hc (List.not_mem_nil c)
    · have hn : 1 ≤ l.length := List.length_pos.mpr hne
      rw [chunkList_cons k hk l hne] at hc
      rcases List.mem_cons.mp hc with hc | hc
      · subst hc
        constructor
        · have : (l.take k).length = min k l.length := List.length_take k l
          intro hnil
          rw [hnil] at this
          simp at this
          omega
        · rw [List.length_take]
          omega
      · exact ih (l.drop k) (by rw [List.length_drop]; omega) c hc

theorem chunkList_mem (k : Nat) (hk : 1 ≤ k) (l : List FacebookRequest) :
    ∀ c ∈ chunkList k l, c ≠ [] ∧ c.length ≤ k :=
  chunkList_mem_bounded k hk l.length l (Nat.le_refl _)

theorem executeWithRetries_requests (oracle : Nat → Nat → Outcome)
    (n : Nat) : ∀ (a : Nat) (b : FacebookBatch),
    (FacebookBatch.executeWithRetries oracle a n b).1.requests = b.requests := by
  induction n with
  | zero => exact fun a b => rfl
  | succ n ih =>
    intro a b
    rw [executeWithRetries_succ]
    cases hretry : should_retry_facebook_batch (b.executeRound (oracle a)) with
    | true =>
      rw [if_pos rfl]
      exact (ih (a + 1) _).trans (executeRound_requests (oracle a) b)
    | false =>
      rw [if_neg (by decide : ¬(false = true))]
      exact executeRound_requests (oracle a) b

theorem execute_requests (oracle : Nat → Nat → Outcome) (b : FacebookBatch) :
    (FacebookBatch.execute oracle b).1.requests = b.requests :=
  executeWithRetries_requests oracle FacebookBatch.MAX_ATTEMPTS 1 b

theorem processChunks_spec (oracle : Nat → Nat → Nat → Outcome) :
    ∀ (cs : List (List FacebookRequest)) (j : Nat)
      (u : FacebookBatchUploader),
    (∀ c ∈ cs, c ≠ [] ∧ c.length ≤ 50) →
    processChunks oracle j cs u =
      ({ u with batches := u.batches ++ (cs.enumFrom j).map (fun p =>
          (FacebookBatch.execute (oracle p.1)
            { requests := p.2
              responses := List.replicate p.2.length none
              errors := List.replicate p.2.length none }).1) }, none) := by
  intro cs
  induction cs with
  | nil =>
    intro j u _
    show (u, none) = _
    simp [List.enumFrom]
  | cons c cs ih =>
    intro j u hcs
    obtain ⟨hne, hle⟩ := hcs c (List.mem_cons_self _ _)
    have hinit : FacebookBatch.init c = .ok
        { requests := c
          responses := List.replicate c.length none
          errors := List.replicate c.length none } := by
      unfold FacebookBatch.init
      rw [if_neg (by simpa using hne), if_neg (Nat.not_lt_of_le hle)]
    show (match FacebookBatch.init c with
      | .error e => (u, some e)
      | .ok b =>
        processChunks oracle (j + 1) cs
          { u with batches := u.batches ++
              [(FacebookBatch.execute (oracle j) b).1] }) = _
    rw [hinit]
    show processChunks oracle (j + 1) cs _ = _
    rw [ih (j + 1) _ (fun c hc => hcs c (List.mem_cons_of_mem _ hc))]
    simp [List.enumFrom, List.append_assoc]

/-- C9: on a batch state mixing a transient and a permanent failure, the
predicate of facebook/retries.py (ANY transient) and the predicate of
batch_uploaders/retries.py (ALL transient) disagree. -/
theorem retry_predicates_disagree :
    should_retry_facebook_batch mixedFailureBatch = true ∧
    should_retry_facebook_batch_old mixedFailureBatch = false ∧
    transientError.is_transient = true ∧
    permanentError.is_transient = false := by
  decide

theorem uploader_execute_valid (oracle : Nat → Nat → Nat → Outcome)
    (u : FacebookBatchUploader) (hb : u.batches = []) (k : Nat)
    (h1 : 1 ≤ k) (h2 : k ≤ 50) :
    ∀ u', u' = { u with
        batches := independentChunkRuns oracle (chunkList k u.requests) } →
    FacebookBatchUploader.execute oracle u k =
      (if u'.errors.any Option.isSome then
        (u', some (.batchExecutionError u'.errors.length u.requests.length))
      else (u', none)) := by
  rintro u' rfl
  have hmem := chunkList_mem k h1 u.requests
  have hchunks : ∀ c ∈ chunkList k u.requests, c ≠ [] ∧ c.length ≤ 50 :=
    fun c hc => ⟨(hmem c hc).1, Nat.le_trans (hmem c hc).2 h2⟩
  have hval : ¬(k < 1 ∨ k > 50) := by omega
  simp only [FacebookBatchUploader.execute]
  rw [if_neg hval, processChunks_spec oracle _ 0 u hchunks, hb]
  simp only [List.nil_append]
  rfl

/-- C6: execute raises InvalidValueError exactly for chunk sizes outside
1..50; for a valid chunk size the batches created are exactly the
consecutive, non-overlapping slices of the request list in order —
ceil(n / chunk_size) of them, concatenating back to the request list. -/
theorem uploader_chunking (u : FacebookBatchUploader) (hb : u.batches = [])
    (oracle : Nat → Nat → Nat → Outcome) (k : Nat) :
    ((k < 1 ∨ 50 < k) →
      FacebookBatchUploader.execute oracle u k =
        (u, some (.invalidValueError "Chunk size must be between 1 and 50"))) ∧
    (1 ≤ k → k ≤ 50 →
      (FacebookBatchUploader.execute oracle u k).1.batches.map
        FacebookBatch.requests = chunkList k u.requests ∧
      (FacebookBatchUploader.execute oracle u k).1.batches.length =
        (u.requests.length + k - 1) / k ∧
      (chunkList k u.requests).flatten = u.requests ∧
      ∀ msg, (FacebookBatchUploader.execute oracle u k).2 ≠
        some (.invalidValueError msg)) := by
  constructor
  · intro hbad
    simp only [FacebookBatchUploader.execute]
    rw [if_pos hbad]
  · intro h1 h2
    have hmain := uploader_execute_valid oracle u hb k h1 h2 _ rfl
    have hfst : (FacebookBatchUploader.execute oracle u k).1 =
        { u with
          batches := independentChunkRuns oracle (chunkList k u.requests) } := by
      rw [hmain]
      by_cases hany : ({ u with
          batches := independentChunkRuns oracle (chunkList k u.requests) }
            : FacebookBatchUploader).errors.any Option.isSome <;>
        simp [hany]
    refine ⟨?_, ?_, chunkList_join k h1 u.requests, ?_⟩
    · rw [hfst]
      show (independentChunkRuns oracle (chunkList k u.requests)).map
        FacebookBatch.requests = _
      unfold independentChunkRuns
      rw [List.map_map]
      have hcomp : ∀ p ∈ (chunkList k u.requests).enumFrom 0,
          (FacebookBatch.requests ∘ fun p =>
            (FacebookBatch.execute (oracle p.1)
              { requests := p.2
                responses := List.replicate p.2.length none
                errors := List.replicate p.2.length none }).1) p = p.2 :=
        fun p _ => execute_requests (oracle p.1) _
      rw [List.map_congr_left hcomp, List.enumFrom_map_snd]
    · rw [hfst]
      show (independentChunkRuns oracle (chunkList k u.requests)).length = _
      unfold independentChunkRuns
      rw [List.length_map, List.enumFrom_length, chunkList_length]
    · intro msg
      rw [hmain]
      by_cases hany : ({ u with
          batches := independentChunkRuns oracle (chunkList k u.requests) }
            : FacebookBatchUploader).errors.any Option.isSome <;>
        simp [hany]

/-- C6 witness: 49 requests at the default chunk size 50 yield exactly
one batch; 50 requests at chunk size 5 yield exactly ten batches. -/
theorem uploader_chunking_witness :
    (FacebookBatchUploader.execute oracleOneFailure
      (FacebookBatchUploader.init
        ((List.range 49).map FacebookRequest.mk)) 50).1.batches.length = 1 ∧
    (FacebookBatchUploader.execute oracleOneFailure
      (FacebookBatchUploader.init
        ((List.range 50).map FacebookRequest.mk)) 5).1.batches.length = 10 := by
  constructor
  · rw [((uploader_chunking (FacebookBatchUploader.init
      ((List.range 49).map FacebookRequest.mk)) rfl oracleOneFailure 50).2
        (by decide) (by decide)).2.1]
    decide
  · rw [((uploader_chunking (FacebookBatchUploader.init
      ((List.range 50).map FacebookRequest.mk)) rfl oracleOneFailure 5).2
        (by decide) (by decide)).2.1]
    decide

/-- C7: with a valid chunk size, every chunk is executed as its own
fresh batch, whatever happens in the other chunks — a batch whose retry
loop ends in RetryError is swallowed and does not prevent any later
chunk from running — and the only exception surfaced after chunking
begins is the aggregate BatchExecutionError. -/
theorem chunk_failures_isolated (u : FacebookBatchUploader)
    (hb : u.batches = []) (oracle : Nat → Nat → Nat → Outcome) (k : Nat)
    (h1 : 1 ≤ k) (h2 : k ≤ 50) :
    (FacebookBatchUploader.execute oracle u k).1.batches =
      independentChunkRuns oracle (chunkList k u.requests) ∧
    ((FacebookBatchUploader.execute oracle u k).2 = none ∨
      ∃ f t, (FacebookBatchUploader.execute oracle u k).2 =
        some (.batchExecutionError f t)) := by
  have hmain := uploader_execute_valid oracle u hb k h1 h2 _ rfl
  constructor
  · rw [hmain]
    by_cases hany : ({ u with
        batches := independentChunkRuns oracle (chunkList k u.requests) }
          : FacebookBatchUploader).errors.any Option.isSome <;>
      simp [hany]
  · rw [hmain]
    by_cases hany : ({ u with
        batches := independentChunkRuns oracle (chunkList k u.requests) }
          : FacebookBatchUploader).errors.any Option.isSome
    · rw [if_pos hany]
      exact Or.inr ⟨_, _, rfl⟩
    · rw [if_neg hany]
      exact Or.inl rfl

/-- C7 witness: a concrete valid run over two requests. -/
theorem chunk_failures_isolated_witness :
    (FacebookBatchUploader.execute oracleOneFailure uploaderTwo 50).1.batches =
      independentChunkRuns oracleOneFailure
        (chunkList 50 uploaderTwo.requests) :=
  (chunk_failures_isolated uploaderTwo rfl oracleOneFailure 50
    (by decide) (by decide)).1

/-- C4 (code bug): on a run where request 0 succeeds and request 1
fails permanently, the raised BatchExecutionError interpolates
len(errors) = 2 — the length of the aggregated error list, None entries
included — as the failed count, although only 1 request actually
failed. -/
theorem uploader_error_count_bug :
    (FacebookBatchUploader.execute oracleOneFailure uploaderTwo 50).2 =
      some (.batchExecutionError 2 2) ∧
    (FacebookBatchUploader.execute oracleOneFailure
      uploaderTwo 50).1.failedCount = 1 := by
  decide

/-- C10: executing an uploader built over an empty request list with any
valid chunk size creates no batches, raises nothing, and leaves the
aggregated responses, errors and items views all empty. -/
theorem empty_uploader_execute (oracle : Nat → Nat → Nat → Outcome)
    (k : Nat) (h1 : 1 ≤ k) (h2 : k ≤ 50) :
    FacebookBatchUploader.execute oracle (FacebookBatchUploader.init []) k =
      (FacebookBatchUploader.init [], none) ∧
    (FacebookBatchUploader.execute oracle
      (FacebookBatchUploader.init []) k).1.batches = [] ∧
    (FacebookBatchUploader.execute oracle
      (FacebookBatchUploader.init []) k).1.responses = [] ∧
    (FacebookBatchUploader.execute oracle
      (FacebookBatchUploader.init []) k).1.errors = [] ∧
    (FacebookBatchUploader.execute oracle
      (FacebookBatchUploader.init []) k).1.items = [] := by
  have hmain := uploader_execute_valid oracle (FacebookBatchUploader.init [])
    rfl k h1 h2 _ rfl
  have hchunks : chunkList k (FacebookBatchUploader.init []).requests = [] :=
    chunkList_nil k
  rw [hchunks] at hmain
  have hruns : independentChunkRuns oracle [] = [] := rfl
  rw [hruns] at hmain
  have hid : ({ FacebookBatchUploader.init [] with batches := [] }
      : FacebookBatchUploader) = FacebookBatchUploader.init [] := rfl
  rw [hid] at hmain
  have hnone : (FacebookBatchUploader.init []).errors.any Option.isSome =
      false := rfl
  rw [hnone] at hmain
  rw [if_neg (by decide : ¬(false = true))] at hmain
  refine ⟨hmain, ?_, ?_, ?_, ?_⟩ <;> rw [hmain] <;> rfl

/-- C10 witness at the default chunk size. -/
theorem empty_uploader_execute_witness :
    FacebookBatchUploader.execute oracleOneFailure
      (FacebookBatchUploader.init []) 50 =
      (FacebookBatchUploader.init [], none) :=
  (empty_uploader_execute oracleOneFailure 50 (by decide) (by decide)).1
